import Mathlib

/-!
Shallow embedding of the report-rendering layer of the call-intel widget:
the duration pipe, the two KPI icon resolvers, the two dialog view-model
builders, and the queue chart data adapter.  JavaScript numbers are
modelled as exact rationals (`Rat`), JavaScript strings as `String`,
JavaScript arrays as `List`, and plain objects used as string-keyed maps
as association lists in insertion order.
-/

/-- Decimal digits of the fraction `n / d` (with `n < d`), most significant
first, produced until the remainder vanishes or the fuel runs out.  This
models the decimal rendering JavaScript applies to fractional number
values with a terminating decimal expansion. -/
def fracDigitChars : Nat → Nat → Nat → List Char
  | 0, _, _ => []
  | _, 0, _ => []
  | fuel + 1, n, d => Nat.digitChar (n * 10 / d) :: fracDigitChars fuel (n * 10 % d) d

/-- Rendering of a nonnegative rational as a decimal numeral, modelling the
JavaScript number-to-string conversion used by template literals. -/
def jsNumToStringNonneg (q : Rat) : String :=
  let i := q.num.toNat / q.den
  let r := q.num.toNat % q.den
  if r = 0 then toString i
  else toString i ++ "." ++ String.mk (fracDigitChars 30 r q.den)

/-- Rendering of a rational as a decimal numeral, modelling the JavaScript
number-to-string conversion performed inside template literals. -/
def jsNumToString (q : Rat) : String :=
  if q < 0 then "-" ++ jsNumToStringNonneg (-q) else jsNumToStringNonneg q

/-- Model of JavaScript `Number.prototype.toFixed(1)`: round to the nearest
tenth (ties away from zero resolved upward, as the ECMAScript algorithm
picks the larger candidate) and print with exactly one digit after the
decimal point. -/
def toFixed1 (q : Rat) : String :=
  let n : Int := (q * 10 + 1 / 2).floor
  if n < 0 then "-" ++ toString ((-n).toNat / 10) ++ "." ++ toString ((-n).toNat % 10)
  else toString (n.toNat / 10) ++ "." ++ toString (n.toNat % 10)

namespace DurationPipe

/-- Model of JavaScript `String.prototype.padStart(2, '0')` on a list of
characters: prepend zeros until the length is at least two. -/
def padStart2 (l : List Char) : List Char :=
  if 2 ≤ l.length then l else List.replicate (2 - l.length) '0' ++ l

/-- Embedding of `DurationPipe.transform` (`duration.pipe.ts`): match the
anchored regular expression `(\d+):(\d{2}):(\d{2})$` against `v`; on a
match return the hour group padded to two digits followed by the minute
and second groups, otherwise return `v` unchanged.  Because the pattern is
anchored at the end of the string, a match is exactly a decomposition of
the string into a prefix, a maximal nonempty run of digits, and a literal
`:MM:SS` tail; the matcher below reads that decomposition off the
reversed character list. -/
def transform (v : String) : String :=
  match v.toList.reverse with
  | s2 :: s1 :: c1 :: m2 :: m1 :: c2 :: rest =>
    if s2.isDigit && s1.isDigit && c1 == ':' && m2.isDigit && m1.isDigit && c2 == ':' then
      let hrev := rest.takeWhile Char.isDigit
      if hrev.isEmpty then v
      else String.mk (padStart2 hrev.reverse ++ ':' :: m1 :: m2 :: ':' :: s1 :: s2 :: [])
    else v
  | _ => v

/-- Statement that the character content of `v` decomposes as
`pre ++ h ++ ":m1m2:s1s2"` with `h` a nonempty run of digits and the four
tail characters digits: exactly the strings the anchored regular
expression `(\d+):(\d{2}):(\d{2})$` matches, with `h` as the hour group. -/
def TailForm (v : String) (pre h : List Char) (m1 m2 s1 s2 : Char) : Prop :=
  v.toList = pre ++ h ++ ':' :: m1 :: m2 :: ':' :: s1 :: s2 :: [] ∧
  h ≠ [] ∧ (∀ c ∈ h, c.isDigit) ∧
  m1.isDigit ∧ m2.isDigit ∧ s1.isDigit ∧ s2.isDigit

instance (v : String) (pre h : List Char) (m1 m2 s1 s2 : Char) :
    Decidable (TailForm v pre h m1 m2 s1 s2) := by
  unfold TailForm
  infer_instance

end DurationPipe

/-- Substring test on character lists, modelling JavaScript
`String.prototype.includes`: does `needle` occur contiguously in `hay`? -/
def listInfix : List Char → List Char → Bool
  | n, [] => n.isEmpty
  | n, c :: cs => n.isPrefixOf (c :: cs) || listInfix n cs

/-- Model of JavaScript `String.prototype.toLowerCase` for the ASCII keys
used here: lower-case the string character by character. -/
def strToLower (s : String) : String := String.mk (s.toList.map Char.toLower)

/-- Lookup in a string-keyed association list representing a JavaScript
object in insertion order: the value at the first matching key. -/
def assocLookup {β : Type} : List (String × β) → String → Option β
  | [], _ => none
  | (a, b) :: t, k => if a = k then some b else assocLookup t k

/-- Shared icon-resolution algorithm of the two `getKpiIcon` methods:
lower-case the key, return the exact-match icon when the lowered key is a
key of the map (every icon string is nonempty, so the source's truthiness
test on the indexed value is exactly a membership test), otherwise return
the icon of the first entry, in insertion order, whose term occurs as a
substring of the lowered key, and otherwise the default `"insights"`. -/
def resolveIcon (iconMap : List (String × String)) (kpiKey : String) : String :=
  let lowerKey := strToLower kpiKey
  match assocLookup iconMap lowerKey with
  | some icon => icon
  | none =>
    match iconMap.find? (fun e => listInfix e.1.toList lowerKey.toList) with
    | some e => e.2
    | none => "insights"

/-- Model of a JavaScript value as stored in a call report's `kpi` map:
`null`, a number, a string, or the structured `longest` record
`\x7bduration, from_name, to_name\x7d`. -/
inductive JSValue where
  | null : JSValue
  | num : Rat → JSValue
  | str : String → JSValue
  | longest : String → String → String → JSValue
deriving DecidableEq

/-- Model of the JavaScript test `typeof v === 'object'`: true exactly for
`null` and for the structured `longest` record. -/
def jsTypeofObject : JSValue → Bool
  | .null => true
  | .longest _ _ _ => true
  | _ => false

/-- Model of JavaScript truthiness for the values of `JSValue`. -/
def jsTruthy : JSValue → Bool
  | .null => false
  | .num q => !(q == 0)
  | .str s => !(s == "")
  | .longest _ _ _ => true

/-- Replacement pass of `setProp`: the value of every binding whose key is
`k` is replaced by `v`, all positions and other bindings unchanged. -/
def setPropAux (k : String) (v : JSValue) : List (String × JSValue) →
    List (String × JSValue)
  | [] => []
  | (a, b) :: t => if a = k then (a, v) :: setPropAux k v t else (a, b) :: setPropAux k v t

/-- Model of a JavaScript property assignment `o[k] = v` on an object in
insertion order: overwrite the value at an existing key in place,
otherwise append the new binding at the end. -/
def setProp (l : List (String × JSValue)) (k : String) (v : JSValue) :
    List (String × JSValue) :=
  if (assocLookup l k).isSome then setPropAux k v l
  else l ++ [(k, v)]

namespace AnalysisDialogComponent

/-- Text composed for a structured `longest` value by the call-dialog
constructor: the template literal with the duration followed by the two
party names.  On any other value (unreachable under the guard in
`buildDisplayKpi`) it yields the empty string. -/
def longestText : JSValue → String
  | .longest d f t => d ++ " (" ++ f ++ " → " ++ t ++ ")"
  | _ => ""

/-- Embedding of step 1 of the `AnalysisDialogComponent` constructor
(`analysis-dialog.component.ts`, lines 26–30): spread-copy `data.kpi` into
`displayKpi`, then, when `kpi.longest` is object-typed and truthy,
overwrite the `longest` entry with the composed string. -/
def buildDisplayKpi (kpi : List (String × JSValue)) : List (String × JSValue) :=
  match assocLookup kpi "longest" with
  | some v =>
    if jsTypeofObject v && jsTruthy v then setProp kpi "longest" (.str (longestText v))
    else kpi
  | none => kpi

/-- Icon map of `AnalysisDialogComponent.getKpiIcon`, in source insertion
order. -/
def callIconMap : List (String × String) :=
  [("calls", "phone"), ("duration", "schedule"), ("success", "check_circle"),
   ("missed", "phone_missed"), ("answered", "call_received"), ("outbound", "call_made"),
   ("inbound", "call_received"), ("average", "trending_up"), ("total", "analytics"),
   ("rate", "percent"), ("volume", "volume_up"), ("longest", "timer"),
   ("shortest", "timer_off"), ("failed", "error"), ("busy", "phone_busy"),
   ("voicemail", "voicemail"), ("transfer", "call_split"), ("hold", "pause_circle"),
   ("queue", "queue"), ("agent", "person"), ("customer", "people"),
   ("satisfaction", "sentiment_satisfied"), ("resolution", "task_alt"),
   ("escalation", "trending_up"), ("abandoned", "call_end"), ("wait", "access_time"),
   ("response", "reply")]

/-- Embedding of `AnalysisDialogComponent.getKpiIcon`. -/
def getKpiIcon (kpiKey : String) : String :=
  resolveIcon callIconMap kpiKey

end AnalysisDialogComponent

/-- Calendar timestamp as parsed by `new Date(...)` from the report's
interval datetime strings, modelled by its local calendar fields. -/
structure DateTime where
  year : Nat
  month : Nat
  day : Nat
  hour : Nat
  minute : Nat
  second : Nat
deriving DecidableEq

/-- Mixed-radix second count of a calendar timestamp.  For field values in
their calendar ranges this key is strictly monotone in chronological
order, so comparing keys models comparing the epoch timestamps of two
parsed `Date` values. -/
def DateTime.toSec (d : DateTime) : Nat :=
  ((((d.year * 13 + d.month) * 32 + d.day) * 24 + d.hour) * 60 + d.minute) * 60 + d.second

/-- Statement that all calendar fields are within their ranges, which holds
for every datetime string that parses to a valid timestamp. -/
def DateTime.Valid (d : DateTime) : Prop :=
  1 ≤ d.month ∧ d.month ≤ 12 ∧ 1 ≤ d.day ∧ d.day ≤ 31 ∧
  d.hour ≤ 23 ∧ d.minute ≤ 59 ∧ d.second ≤ 59

instance (d : DateTime) : Decidable d.Valid := by
  unfold DateTime.Valid
  infer_instance

/-- English three-letter month abbreviations used by
`toLocaleDateString('en-US', ...)` with the `short` month option. -/
def monthNames : List String :=
  ["Jan", "Feb", "Mar", "Apr", "May", "Jun", "Jul", "Aug", "Sep", "Oct", "Nov", "Dec"]

/-- Embedding of the local `formatDate` helper of `calculateDateRange`:
`toLocaleDateString('en-US', \x7bmonth: 'short', day: 'numeric',
year: 'numeric'\x7d)`, wich renders as `"<Mon> <Day>, <Year>"`. -/
def formatDate (d : DateTime) : String :=
  monthNames.getD (d.month - 1) "" ++ " " ++ toString d.day ++ ", " ++ toString d.year

/-- Model of the `toDateString()` equality test of `calculateDateRange`:
two timestamps render to the same `toDateString` exactly when they fall on
the same local calendar day. -/
def sameDay (a b : DateTime) : Bool :=
  a.year == b.year && a.month == b.month && a.day == b.day

/-- Interval descriptor of the queue metrics, with the datetime already
parsed (the claims under study assume the datetime strings parse to valid
timestamps). -/
structure IntervalInfo where
  datetime : DateTime
  answered_calls : String
  abandoned_calls : String
deriving DecidableEq

/-- Embedding of the `queue_metrics` object of `QueueReportJSON`
(`queue.service.ts`): the counts are serialized as strings, the rates and
durations are numbers. -/
structure QueueMetrics where
  total_offered : String
  total_answered : String
  total_abandoned : String
  total_overflowed : String
  abandonment_rate : Rat
  answer_rate : Rat
  overflow_rate : Rat
  avg_wait_time_sec : Rat
  max_wait_time_sec : Rat
  avg_handle_time_sec : Rat
  peak_interval : IntervalInfo
  worst_abandon_interval : IntervalInfo
deriving DecidableEq

namespace QueueDialogComponent

/-- Embedding of the `displayKpi` construction in the
`QueueDialogComponent` constructor (`queue-dialog.component.ts`,
lines 23–32): the fixed object literal of eight labelled entries, in
source insertion order. -/
def displayKpi (m : QueueMetrics) : List (String × String) :=
  [("Total Offered", m.total_offered),
   ("Total Answered", m.total_answered),
   ("Total Abandoned", m.total_abandoned),
   ("Answer Rate", jsNumToString m.answer_rate ++ "%"),
   ("Abandonment Rate", jsNumToString m.abandonment_rate ++ "%"),
   ("Avg Wait Time", jsNumToString m.avg_wait_time_sec ++ "s"),
   ("Max Wait Time", jsNumToString m.max_wait_time_sec ++ "s"),
   ("Avg Handle Time", toFixed1 m.avg_handle_time_sec ++ "s")]

/-- Embedding of line 80 of `queue-dialog.component.ts`:
`peakDate < worstDate ? peakDate : worstDate`. -/
def startDate (peakDate worstDate : DateTime) : DateTime :=
  if peakDate.toSec < worstDate.toSec then peakDate else worstDate

/-- Embedding of line 81 of `queue-dialog.component.ts`:
`peakDate > worstDate ? peakDate : worstDate`. -/
def endDate (peakDate worstDate : DateTime) : DateTime :=
  if worstDate.toSec < peakDate.toSec then peakDate else worstDate

/-- Embedding of `QueueDialogComponent.calculateDateRange`
(`queue-dialog.component.ts`, lines 76–96). -/
def calculateDateRange (m : QueueMetrics) : String :=
  let peakDate := m.peak_interval.datetime
  let worstDate := m.worst_abandon_interval.datetime
  let s := startDate peakDate worstDate
  let e := endDate peakDate worstDate
  if sameDay s e then formatDate s
  else formatDate s ++ " - " ++ formatDate e

/-- Icon map of `QueueDialogComponent.getKpiIcon`, in source insertion
order. -/
def queueIconMap : List (String × String) :=
  [("total offered", "phone_in_talk"), ("total answered", "call_received"),
   ("total abandoned", "call_end"), ("answer rate", "check_circle"),
   ("abandonment rate", "cancel"), ("avg wait time", "access_time"),
   ("max wait time", "timer"), ("avg handle time", "schedule"),
   ("queue", "queue"), ("calls", "phone"), ("rate", "percent"),
   ("time", "schedule"), ("wait", "access_time"), ("handle", "touch_app"),
   ("answered", "call_received"), ("abandoned", "call_end"),
   ("offered", "phone_in_talk")]

/-- Embedding of `QueueDialogComponent.getKpiIcon`. -/
def getKpiIcon (kpiKey : String) : String :=
  resolveIcon queueIconMap kpiKey

end QueueDialogComponent

/-- Embedding of one row of `service_trends` (`queue.service.ts`): the
fields with spaces in their JSON names are written with underscores. -/
structure HourBucket where
  HOUR : Rat
  ANSWERED_CALLS : Rat
  ABANDONED_CALLS : Rat
  OVERFLOWED_CALLS : Rat
  TOTAL_OFFERED : Rat
  ABANDONMENT_RATE : Rat
deriving DecidableEq

/-- Ordering used by the comparator `(a, b) => a.HOUR - b.HOUR` passed to
`Array.prototype.sort`: `a` may stay before `b` exactly when the
comparator is nonpositive. -/
def hourLE (a b : HourBucket) : Prop := a.HOUR ≤ b.HOUR

instance : DecidableRel hourLE := fun a b => inferInstanceAs (Decidable (a.HOUR ≤ b.HOUR))

instance : IsTotal HourBucket hourLE := ⟨fun a b => le_total a.HOUR b.HOUR⟩

instance : IsTrans HourBucket hourLE := ⟨fun _ _ _ hab hbc => le_trans hab hbc⟩

namespace QueueChartsComponent

/-- Chart payload assembled by `createHourlyChart`: the axis labels and
the two parallel data series. -/
structure HourlyChartData where
  labels : List String
  totalCalls : List Rat
  abandonmentRate : List Rat
deriving DecidableEq

/-- Embedding of `QueueChartsComponent.createHourlyChart`
(`queue-fab.component.ts`, lines 198–225).  The source calls
`this.data.service_trends.sort(...)`, and `Array.prototype.sort` sorts
the array in place and returns that same array, so the component's
`service_trends` after the call holds the sorted sequence; the first
component of the result models that post-call array, the second the chart
data derived from `hourlyData`.  ECMAScript requires the sort to be
stable and sorted against the comparator, which for the comparator
`a.HOUR - b.HOUR` is exactly the stable sort by `hourLE`, here realised
by `List.insertionSort`. -/
def createHourlyChart (service_trends : List HourBucket) :
    List HourBucket × HourlyChartData :=
  let hourlyData := List.insertionSort hourLE service_trends
  (hourlyData,
   ⟨hourlyData.map (fun h => jsNumToString h.HOUR ++ ":00"),
    hourlyData.map HourBucket.TOTAL_OFFERED,
    hourlyData.map HourBucket.ABANDONMENT_RATE⟩)

end QueueChartsComponent

/-- Sample timestamp `2025-07-09T13:30:00` from the spec's test vector. -/
def dtJul9 : DateTime := ⟨2025, 7, 9, 13, 30, 0⟩

/-- Sample timestamp `2025-07-16T11:30:00` from the spec's test vector. -/
def dtJul16 : DateTime := ⟨2025, 7, 16, 11, 30, 0⟩

/-- Sample interval descriptor around a given datetime. -/
def sampleInterval (d : DateTime) : IntervalInfo := ⟨d, "5", "2"⟩

/-- Sample queue metrics with the two interval datetimes as given, used to
instantiate the universally quantified theorems at concrete inputs. -/
def sampleMetrics (pd wd : DateTime) : QueueMetrics :=
  ⟨"120", "100", "20", "0", 13, 87, 0, 23, 180, 17,
   sampleInterval pd, sampleInterval wd⟩

/-- Sample call-report `kpi` map whose `longest` entry is the structured
record from the spec's test vector. -/
def sampleKpiObj : List (String × JSValue) :=
  [("total", .num 10), ("longest", .longest "0 days 00:29:46" "A" "B")]

/-- Sample call-report `kpi` map whose `longest` entry is the scalar 42. -/
def sampleKpiNum : List (String × JSValue) :=
  [("total", .num 10), ("longest", .num 42)]

/-- Sample call-report `kpi` map whose `longest` entry is `null`. -/
def sampleKpiNull : List (String × JSValue) :=
  [("total", .num 10), ("longest", .null)]

/-- Unsorted sample `service_trends` with hours 14, 9, 12, matching the
spec's test vector for the hourly series. -/
def exTrends : List HourBucket :=
  [⟨14, 1, 0, 0, 5, 2⟩, ⟨9, 2, 0, 0, 7, 1⟩, ⟨12, 3, 0, 0, 4, 3⟩]

/-- C2: for every queue report whose two interval datetimes parse to valid
timestamps, `calculateDateRange` orders them — the start is the earlier
timestamp and the end the later — formats each through `formatDate`
(which renders `"<Mon> <Day>, <Year>"`), and returns the single formatted
start date when start and end fall on the same calendar day, otherwise
`"<start> - <end>"`. -/
theorem calculateDateRange_spec (m : QueueMetrics)
    (hp : m.peak_interval.datetime.Valid) (hw : m.worst_abandon_interval.datetime.Valid) :
    (QueueDialogComponent.startDate m.peak_interval.datetime
        m.worst_abandon_interval.datetime).toSec =
      min m.peak_interval.datetime.toSec m.worst_abandon_interval.datetime.toSec ∧
    (QueueDialogComponent.endDate m.peak_interval.datetime
        m.worst_abandon_interval.datetime).toSec =
      max m.peak_interval.datetime.toSec m.worst_abandon_interval.datetime.toSec ∧
    (sameDay
        (QueueDialogComponent.startDate m.peak_interval.datetime
          m.worst_abandon_interval.datetime)
        (QueueDialogComponent.endDate m.peak_interval.datetime
          m.worst_abandon_interval.datetime) = true →
      QueueDialogComponent.calculateDateRange m =
        formatDate (QueueDialogComponent.startDate m.peak_interval.datetime
          m.worst_abandon_interval.datetime)) ∧
    (sameDay
        (QueueDialogComponent.startDate m.peak_interval.datetime
          m.worst_abandon_interval.datetime)
        (QueueDialogComponent.endDate m.peak_interval.datetime
          m.worst_abandon_interval.datetime) = false →
      QueueDialogComponent.calculateDateRange m =
        formatDate (QueueDialogComponent.startDate m.peak_interval.datetime
          m.worst_abandon_interval.datetime) ++ " - " ++
        formatDate (QueueDialogComponent.endDate m.peak_interval.datetime
          m.worst_abandon_interval.datetime)) := by
  refine ⟨?_, ?_, ?_, ?_⟩
  · unfold QueueDialogComponent.startDate
    split_ifs with h <;> omega
  · unfold QueueDialogComponent.endDate
    split_ifs with h <;> omega
  · intro hs
    simp only [QueueDialogComponent.calculateDateRange, hs, if_true]
  · intro hs
    simp only [QueueDialogComponent.calculateDateRange, hs, Bool.false_eq_true, if_false]

/-- Witness for C2 at the spec's test vector: the two sample datetimes are
valid, fall on different days, and the range renders as
`"Jul 9, 2025 - Jul 16, 2025"`. -/
theorem calculateDateRange_spec_witness :
    DateTime.Valid dtJul9 ∧ DateTime.Valid dtJul16 ∧
    QueueDialogComponent.calculateDateRange (sampleMetrics dtJul9 dtJul16) =
      "Jul 9, 2025 - Jul 16, 2025" := by
  refine ⟨by decide, by decide, ?_⟩
  have h := calculateDateRange_spec (sampleMetrics dtJul9 dtJul16) (by decide) (by decide)
  rw [h.2.2.2 (by decide)]
  rfl

/-- C10: for every queue report whose two interval datetimes parse to
exactly equal timestamps, both strict comparisons are false, so start and
end both resolve to the worst-abandon datetime, and `calculateDateRange`
returns that single formatted date, never a range. -/
theorem calculateDateRange_equal_timestamps (m : QueueMetrics)
    (heq : m.peak_interval.datetime.toSec = m.worst_abandon_interval.datetime.toSec) :
    QueueDialogComponent.startDate m.peak_interval.datetime
        m.worst_abandon_interval.datetime = m.worst_abandon_interval.datetime ∧
    QueueDialogComponent.endDate m.peak_interval.datetime
        m.worst_abandon_interval.datetime = m.worst_abandon_interval.datetime ∧
    QueueDialogComponent.calculateDateRange m =
      formatDate m.worst_abandon_interval.datetime := by
  have h1 : QueueDialogComponent.startDate m.peak_interval.datetime
      m.worst_abandon_interval.datetime = m.worst_abandon_interval.datetime := by
    unfold QueueDialogComponent.startDate
    rw [if_neg (by omega)]
  have h2 : QueueDialogComponent.endDate m.peak_interval.datetime
      m.worst_abandon_interval.datetime = m.worst_abandon_interval.datetime := by
    unfold QueueDialogComponent.endDate
    rw [if_neg (by omega)]
  refine ⟨h1, h2, ?_⟩
  simp only [QueueDialogComponent.calculateDateRange, h1, h2]
  simp [sameDay]

/-- Witness for C10: with both interval datetimes equal to
`2025-07-09T13:30:00`, the result is the single date `"Jul 9, 2025"`. -/
theorem calculateDateRange_equal_timestamps_witness :
    QueueDialogComponent.calculateDateRange (sampleMetrics dtJul9 dtJul9) =
      "Jul 9, 2025" := by
  have h := calculateDateRange_equal_timestamps (sampleMetrics dtJul9 dtJul9) rfl
  rw [h.2.2]
  rfl

/-- C3: for every queue report (with a nonnegative average handle time, as
every duration metric is), the queue-report builder produces exactly the
eight curated entries in order — the three raw counts, the two rates
suffixed `%`, the two wait times suffixed `s` — and the Avg Handle Time
entry is the `toFixed(1)` rendering suffixed `s`, a numeral with exactly
one digit after the decimal point. -/
theorem queue_displayKpi_spec (m : QueueMetrics) (h : 0 ≤ m.avg_handle_time_sec) :
    QueueDialogComponent.displayKpi m =
      [("Total Offered", m.total_offered),
       ("Total Answered", m.total_answered),
       ("Total Abandoned", m.total_abandoned),
       ("Answer Rate", jsNumToString m.answer_rate ++ "%"),
       ("Abandonment Rate", jsNumToString m.abandonment_rate ++ "%"),
       ("Avg Wait Time", jsNumToString m.avg_wait_time_sec ++ "s"),
       ("Max Wait Time", jsNumToString m.max_wait_time_sec ++ "s"),
       ("Avg Handle Time", toFixed1 m.avg_handle_time_sec ++ "s")] ∧
    ∃ (w d : Nat), d < 10 ∧
      toFixed1 m.avg_handle_time_sec = toString w ++ "." ++ toString d := by
  constructor
  · rfl
  · have hn0 : (0 : Int) ≤ (m.avg_handle_time_sec * 10 + 1 / 2).floor := by
      rw [Rat.le_floor]
      push_cast
      linarith
    refine ⟨(m.avg_handle_time_sec * 10 + 1 / 2).floor.toNat / 10,
            (m.avg_handle_time_sec * 10 + 1 / 2).floor.toNat % 10, by omega, ?_⟩
    simp only [toFixed1]
    rw [if_neg (by omega)]

/-- Witness for C3 at the spec's test vector `avg_handle_time_sec = 17.0`:
the builder yields exactly the eight entries, with
`displayKpi["Avg Handle Time"] = "17.0s"`. -/
theorem queue_displayKpi_spec_witness :
    QueueDialogComponent.displayKpi (sampleMetrics dtJul9 dtJul16) =
      [("Total Offered", "120"),
       ("Total Answered", "100"),
       ("Total Abandoned", "20"),
       ("Answer Rate", "87%"),
       ("Abandonment Rate", "13%"),
       ("Avg Wait Time", "23s"),
       ("Max Wait Time", "180s"),
       ("Avg Handle Time", "17.0s")] := by
  have h : QueueDialogComponent.displayKpi (sampleMetrics dtJul9 dtJul16) =
      [("Total Offered", "120"),
       ("Total Answered", "100"),
       ("Total Abandoned", "20"),
       ("Answer Rate", jsNumToString 87 ++ "%"),
       ("Abandonment Rate", jsNumToString 13 ++ "%"),
       ("Avg Wait Time", jsNumToString 23 ++ "s"),
       ("Max Wait Time", jsNumToString 180 ++ "s"),
       ("Avg Handle Time", toFixed1 17 ++ "s")] :=
    (queue_displayKpi_spec (sampleMetrics dtJul9 dtJul16) (by decide)).1
  rw [h, show toFixed1 17 = "17.0" by unfold toFixed1; norm_num [Rat.floor]; rfl]
  rfl

/-- Replacing the value at key `k` makes the lookup at `k` yield the new
value whenever the key was present. -/
theorem assocLookup_setPropAux_self (t : List (String × JSValue)) (k : String) (v : JSValue) :
    assocLookup (setPropAux k v t) k = (assocLookup t k).map (fun _ => v) := by
  induction t with
  | nil => rfl
  | cons p t ih =>
    obtain ⟨a, b⟩ := p
    by_cases hak : a = k
    · simp only [setPropAux]
      rw [if_pos hak]
      simp only [assocLookup]
      rw [if_pos hak, if_pos hak]
      rfl
    · simp only [setPropAux]
      rw [if_neg hak]
      simp only [assocLookup]
      rw [if_neg hak, if_neg hak]
      exact ih

/-- Replacing the value at key `k` leaves the lookup at any other key
unchanged. -/
theorem assocLookup_setPropAux_ne (t : List (String × JSValue)) (k : String) (v : JSValue)
    (k' : String) (h : k ≠ k') :
    assocLookup (setPropAux k v t) k' = assocLookup t k' := by
  induction t with
  | nil => rfl
  | cons p t ih =>
    obtain ⟨a, b⟩ := p
    by_cases hak : a = k
    · have hk' : ¬a = k' := fun he => h (hak.symm.trans he)
      simp only [setPropAux]
      rw [if_pos hak]
      simp only [assocLookup]
      rw [if_neg hk', if_neg hk']
      exact ih
    · simp only [setPropAux]
      rw [if_neg hak]
      simp only [assocLookup]
      by_cases hk' : a = k'
      · rw [if_pos hk', if_pos hk']
      · rw [if_neg hk', if_neg hk']
        exact ih

/-- Appending a binding for key `k` at the end leaves the lookup at any
other key unchanged. -/
theorem assocLookup_append_single (t : List (String × JSValue)) (k : String) (v : JSValue)
    (k' : String) (h : k ≠ k') :
    assocLookup (t ++ [(k, v)]) k' = assocLookup t k' := by
  induction t with
  | nil =>
    simp only [List.nil_append, assocLookup]
    rw [if_neg h]
  | cons p t ih =>
    obtain ⟨a, b⟩ := p
    simp only [List.cons_append, assocLookup]
    by_cases hk : a = k'
    · rw [if_pos hk, if_pos hk]
    · rw [if_neg hk, if_neg hk]
      exact ih

/-- Overwriting an existing key with `setProp` changes the value found at
that key to the new value. -/
theorem assocLookup_setProp_self (l : List (String × JSValue)) (k : String) (v : JSValue)
    (h : (assocLookup l k).isSome) : assocLookup (setProp l k v) k = some v := by
  unfold setProp
  rw [if_pos h, assocLookup_setPropAux_self]
  cases hs : assocLookup l k with
  | none => rw [hs] at h; simp at h
  | some u => rfl

/-- The `setProp` update leaves every other key's value unchanged. -/
theorem assocLookup_setProp_ne (l : List (String × JSValue)) (k : String) (v : JSValue)
    (k' : String) (hne : k' ≠ k) : assocLookup (setProp l k v) k' = assocLookup l k' := by
  unfold setProp
  split_ifs with h
  · exact assocLookup_setPropAux_ne l k v k' (fun he => hne he.symm)
  · exact assocLookup_append_single l k v k' (fun he => hne he.symm)

/-- C4: the call-report builder copies `report.kpi` into `displayKpi`; when
`kpi.longest` is the structured record, the `longest` entry is replaced by
the string `"<duration> (<from_name> → <to_name>)"` while every other key
keeps its value, and when `kpi.longest` is a scalar (number or string) the
map is left entirely untouched. -/
theorem call_displayKpi_longest (kpi : List (String × JSValue)) (d f t : String) :
    (assocLookup kpi "longest" = some (.longest d f t) →
      assocLookup (AnalysisDialogComponent.buildDisplayKpi kpi) "longest" =
        some (.str (d ++ " (" ++ f ++ " → " ++ t ++ ")")) ∧
      ∀ k, k ≠ "longest" →
        assocLookup (AnalysisDialogComponent.buildDisplayKpi kpi) k = assocLookup kpi k) ∧
    (∀ q : Rat, assocLookup kpi "longest" = some (.num q) →
      AnalysisDialogComponent.buildDisplayKpi kpi = kpi) ∧
    (∀ s : String, assocLookup kpi "longest" = some (.str s) →
      AnalysisDialogComponent.buildDisplayKpi kpi = kpi) := by
  refine ⟨?_, ?_, ?_⟩
  · intro h
    have hb : AnalysisDialogComponent.buildDisplayKpi kpi =
        setProp kpi "longest" (.str (d ++ " (" ++ f ++ " → " ++ t ++ ")")) := by
      unfold AnalysisDialogComponent.buildDisplayKpi
      rw [h]
      rfl
    have hsome : (assocLookup kpi "longest").isSome := by rw [h]; rfl
    constructor
    · rw [hb]
      exact assocLookup_setProp_self kpi "longest" _ hsome
    · intro k hk
      rw [hb]
      exact assocLookup_setProp_ne kpi "longest" _ k hk
  · intro q h
    unfold AnalysisDialogComponent.buildDisplayKpi
    rw [h]
    rfl
  · intro s h
    unfold AnalysisDialogComponent.buildDisplayKpi
    rw [h]
    rfl

/-- Witness for C4 at the spec's test vectors: the structured record
renders to `"0 days 00:29:46 (A → B)"` with the sibling entry preserved,
and the scalar 42 leaves the map untouched. -/
theorem call_displayKpi_longest_witness :
    assocLookup (AnalysisDialogComponent.buildDisplayKpi sampleKpiObj) "longest" =
      some (.str "0 days 00:29:46 (A → B)") ∧
    assocLookup (AnalysisDialogComponent.buildDisplayKpi sampleKpiObj) "total" =
      some (.num 10) ∧
    AnalysisDialogComponent.buildDisplayKpi sampleKpiNum = sampleKpiNum := by
  refine ⟨?_, ?_, ?_⟩
  · exact ((call_displayKpi_longest sampleKpiObj "0 days 00:29:46" "A" "B").1 (by rfl)).1
  · have h := ((call_displayKpi_longest sampleKpiObj "0 days 00:29:46" "A" "B").1
      (by rfl)).2 "total" (by decide)
    rw [h]
    rfl
  · exact (call_displayKpi_longest sampleKpiNum "" "" "").2.1 42 (by rfl)

/-- C9: when `kpi.longest` is `null`, the object branch is not taken —
`typeof null` is `'object'` but `null` is falsy — so the builder completes
with the copied map unchanged and `displayKpi.longest` still `null`. -/
theorem call_displayKpi_null (kpi : List (String × JSValue))
    (h : assocLookup kpi "longest" = some .null) :
    AnalysisDialogComponent.buildDisplayKpi kpi = kpi ∧
    assocLookup (AnalysisDialogComponent.buildDisplayKpi kpi) "longest" =
      some JSValue.null := by
  have h1 : AnalysisDialogComponent.buildDisplayKpi kpi = kpi := by
    unfold AnalysisDialogComponent.buildDisplayKpi
    rw [h]
    rfl
  exact ⟨h1, by rw [h1, h]⟩

/-- Witness for C9: a concrete map with a `null` `longest` entry passes
through the builder unchanged. -/
theorem call_displayKpi_null_witness :
    AnalysisDialogComponent.buildDisplayKpi sampleKpiNull = sampleKpiNull ∧
    assocLookup (AnalysisDialogComponent.buildDisplayKpi sampleKpiNull) "longest" =
      some JSValue.null :=
  call_displayKpi_null sampleKpiNull (by rfl)

/-- Value of `List.find?` on a list split around the first satisfying
element: everything before `e` fails the test and `e` passes it, so the
scan returns `e`. -/
theorem find?_first {α : Type} (p : α → Bool) (l1 l2 : List α) (e : α)
    (h1 : ∀ x ∈ l1, p x = false) (he : p e = true) :
    List.find? p (l1 ++ e :: l2) = some e := by
  induction l1 with
  | nil =>
    simp only [List.nil_append]
    exact List.find?_cons_of_pos _ he
  | cons a t ih =>
    have ha : p a = false := h1 a (by simp)
    simp only [List.cons_append]
    rw [List.find?_cons_of_neg _ (by simp [ha])]
    exact ih (fun x hx => h1 x (by simp [hx]))

/-- Exact-match case of `resolveIcon`: a hit in the map at the lowered key
is returned directly. -/
theorem resolveIcon_exact (mp : List (String × String)) (key i : String)
    (h : assocLookup mp (strToLower key) = some i) : resolveIcon mp key = i := by
  simp only [resolveIcon]
  rw [h]

/-- Substring case of `resolveIcon`: with no exact match, the icon of the
first entry in insertion order whose term occurs inside the lowered key is
returned. -/
theorem resolveIcon_substr (mp : List (String × String)) (key : String)
    (e : String × String) (l1 l2 : List (String × String))
    (hnone : assocLookup mp (strToLower key) = none)
    (hsplit : mp = l1 ++ e :: l2)
    (he : listInfix e.1.toList (strToLower key).toList = true)
    (hl1 : ∀ x ∈ l1, listInfix x.1.toList (strToLower key).toList = false) :
    resolveIcon mp key = e.2 := by
  have hf : mp.find? (fun x => listInfix x.1.toList (strToLower key).toList) = some e := by
    rw [hsplit]
    exact find?_first _ l1 l2 e hl1 he
  simp only [resolveIcon]
  rw [hnone, hf]

/-- Default case of `resolveIcon`: with no exact match and no substring
match, the constant `"insights"` is returned. -/
theorem resolveIcon_default (mp : List (String × String)) (key : String)
    (hnone : assocLookup mp (strToLower key) = none)
    (hall : ∀ x ∈ mp, listInfix x.1.toList (strToLower key).toList = false) :
    resolveIcon mp key = "insights" := by
  have hf : mp.find? (fun x => listInfix x.1.toList (strToLower key).toList) = none :=
    List.find?_eq_none.mpr (fun x hx => by
      rw [Bool.not_eq_true]
      exact hall x hx)
  simp only [resolveIcon]
  rw [hnone, hf]

/-- C5: both icon resolvers lower-case the key and then return the mapped
icon on an exact match, otherwise the icon of the first entry in the
map's insertion order whose term is a substring of the lowered key, and
otherwise the default `"insights"`; the exact match takes strict priority
over the substring scan. -/
theorem getKpiIcon_spec (key : String) :
    (∀ i, assocLookup AnalysisDialogComponent.callIconMap (strToLower key) = some i →
      AnalysisDialogComponent.getKpiIcon key = i) ∧
    (assocLookup AnalysisDialogComponent.callIconMap (strToLower key) = none →
      ∀ e l1 l2, AnalysisDialogComponent.callIconMap = l1 ++ e :: l2 →
        listInfix e.1.toList (strToLower key).toList = true →
        (∀ x ∈ l1, listInfix x.1.toList (strToLower key).toList = false) →
        AnalysisDialogComponent.getKpiIcon key = e.2) ∧
    (assocLookup AnalysisDialogComponent.callIconMap (strToLower key) = none →
      (∀ x ∈ AnalysisDialogComponent.callIconMap,
        listInfix x.1.toList (strToLower key).toList = false) →
      AnalysisDialogComponent.getKpiIcon key = "insights") ∧
    (∀ i, assocLookup QueueDialogComponent.queueIconMap (strToLower key) = some i →
      QueueDialogComponent.getKpiIcon key = i) ∧
    (assocLookup QueueDialogComponent.queueIconMap (strToLower key) = none →
      ∀ e l1 l2, QueueDialogComponent.queueIconMap = l1 ++ e :: l2 →
        listInfix e.1.toList (strToLower key).toList = true →
        (∀ x ∈ l1, listInfix x.1.toList (strToLower key).toList = false) →
        QueueDialogComponent.getKpiIcon key = e.2) ∧
    (assocLookup QueueDialogComponent.queueIconMap (strToLower key) = none →
      (∀ x ∈ QueueDialogComponent.queueIconMap,
        listInfix x.1.toList (strToLower key).toList = false) →
      QueueDialogComponent.getKpiIcon key = "insights") := by
  refine ⟨?_, ?_, ?_, ?_, ?_, ?_⟩
  · intro i h
    exact resolveIcon_exact _ key i h
  · intro hnone e l1 l2 hsplit he hl1
    exact resolveIcon_substr _ key e l1 l2 hnone hsplit he hl1
  · intro hnone hall
    exact resolveIcon_default _ key hnone hall
  · intro i h
    exact resolveIcon_exact _ key i h
  · intro hnone e l1 l2 hsplit he hl1
    exact resolveIcon_substr _ key e l1 l2 hnone hsplit he hl1
  · intro hnone hall
    exact resolveIcon_default _ key hnone hall

/-- Witness for C5: the queue resolver maps `"total_offered"` through the
substring term `"offered"` (entry 17 of the map) to `"phone_in_talk"`
rather than the default, the call resolver maps `"calls"` by exact match
to `"phone"`, and an unrelated key falls through to `"insights"`. -/
theorem getKpiIcon_spec_witness :
    QueueDialogComponent.getKpiIcon "total_offered" = "phone_in_talk" ∧
    AnalysisDialogComponent.getKpiIcon "calls" = "phone" ∧
    AnalysisDialogComponent.getKpiIcon "zzz" = "insights" := by
  refine ⟨?_, ?_, ?_⟩
  · exact (getKpiIcon_spec "total_offered").2.2.2.2.1 (by decide)
      ("offered", "phone_in_talk") (QueueDialogComponent.queueIconMap.take 16) []
      (by decide) (by decide) (by decide)
  · exact (getKpiIcon_spec "calls").1 "phone" (by decide)
  · exact (getKpiIcon_spec "zzz").2.2.1 (by decide) (by decide)

/-- Inserting a bucket into a list leaves each per-hour filter of the list
unchanged except for prepending the bucket to its own hour class: the
insertion only walks past buckets with a strictly smaller hour. -/
theorem filter_orderedInsert_hour (q : Rat) (x : HourBucket) (l : List HourBucket) :
    (List.orderedInsert hourLE x l).filter (fun b => decide (b.HOUR = q)) =
      if x.HOUR = q then x :: l.filter (fun b => decide (b.HOUR = q))
      else l.filter (fun b => decide (b.HOUR = q)) := by
  induction l with
  | nil =>
    by_cases hx : x.HOUR = q <;> simp [List.orderedInsert, List.filter, hx]
  | cons b t ih =>
    by_cases hxb : hourLE x b
    · rw [List.orderedInsert, if_pos hxb]
      by_cases hx : x.HOUR = q <;> simp [List.filter_cons, hx]
    · rw [List.orderedInsert, if_neg hxb]
      have hlt : b.HOUR < x.HOUR := not_le.mp hxb
      by_cases hx : x.HOUR = q
      · have hb : ¬b.HOUR = q := fun he => absurd (hx ▸ he) hlt.ne
        simp [List.filter_cons, hb, ih, hx]
      · simp [List.filter_cons, ih, hx]

/-- Stability of the hour sort: for every hour value, the buckets of that
hour appear in the sorted list exactly as they appear in the input. -/
theorem filter_insertionSort_hour (q : Rat) (l : List HourBucket) :
    (List.insertionSort hourLE l).filter (fun b => decide (b.HOUR = q)) =
      l.filter (fun b => decide (b.HOUR = q)) := by
  induction l with
  | nil => rfl
  | cons b t ih =>
    simp only [List.insertionSort, filter_orderedInsert_hour, ih, List.filter_cons]
    by_cases hb : b.HOUR = q <;> simp [hb]

/-- C8: the hourly series used by the hourly chart is the stable ascending
sort of the hour buckets by `HOUR` — sorted, a permutation of the input,
per-hour classes kept in input order — the labels and the two parallel
series (`TOTAL_OFFERED`, `ABANDONMENT_RATE`) are derived from that
ordered sequence, and on the sample with hours 14, 9, 12 the series comes
out ordered 9, 12, 14. -/
theorem createHourlyChart_series_spec (trends : List HourBucket) :
    List.Sorted hourLE (QueueChartsComponent.createHourlyChart trends).1 ∧
    List.Perm (QueueChartsComponent.createHourlyChart trends).1 trends ∧
    (∀ q : Rat, (QueueChartsComponent.createHourlyChart trends).1.filter
        (fun b => decide (b.HOUR = q)) =
      trends.filter (fun b => decide (b.HOUR = q))) ∧
    (QueueChartsComponent.createHourlyChart trends).2.labels =
      (QueueChartsComponent.createHourlyChart trends).1.map
        (fun h => jsNumToString h.HOUR ++ ":00") ∧
    (QueueChartsComponent.createHourlyChart trends).2.totalCalls =
      (QueueChartsComponent.createHourlyChart trends).1.map HourBucket.TOTAL_OFFERED ∧
    (QueueChartsComponent.createHourlyChart trends).2.abandonmentRate =
      (QueueChartsComponent.createHourlyChart trends).1.map HourBucket.ABANDONMENT_RATE ∧
    (QueueChartsComponent.createHourlyChart exTrends).1.map HourBucket.HOUR =
      [9, 12, 14] :=
  ⟨List.sorted_insertionSort hourLE trends,
   List.perm_insertionSort hourLE trends,
   fun q => filter_insertionSort_hour q trends,
   rfl, rfl, rfl, by decide⟩

/-- Counterexample for C1: on the sample with hours 14, 9, 12, the
`service_trends` array held by the component after `createHourlyChart` is
not the sequence it was given — `Array.prototype.sort` sorted it in
place, so the original order is gone. -/
theorem createHourlyChart_not_fresh_copy :
    (QueueChartsComponent.createHourlyChart exTrends).1 ≠ exTrends := by decide

/-- C1 (amended): `createHourlyChart` sorts `service_trends` in place —
after the call the component's array is the hour-sorted permutation of
the sequence it was given, and it coincides with the original sequence
exactly when that sequence was already sorted by hour. -/
theorem createHourlyChart_post_state (trends : List HourBucket) :
    List.Perm (QueueChartsComponent.createHourlyChart trends).1 trends ∧
    List.Sorted hourLE (QueueChartsComponent.createHourlyChart trends).1 ∧
    ((QueueChartsComponent.createHourlyChart trends).1 = trends ↔
      List.Sorted hourLE trends) := by
  refine ⟨List.perm_insertionSort hourLE trends,
          List.sorted_insertionSort hourLE trends, ?_, ?_⟩
  · intro h
    exact h ▸ List.sorted_insertionSort hourLE trends
  · intro h
    exact List.Sorted.insertionSort_eq h

namespace DurationPipe

/-- Value of `takeWhile` on an append whose left part satisfies the test
throughout and whose right part opens with a failing character: exactly
the left part. -/
theorem takeWhile_all_append (p : Char → Bool) (l1 l2 : List Char)
    (h1 : ∀ c ∈ l1, p c = true) (h2 : ∀ c, l2.head? = some c → p c = false) :
    (l1 ++ l2).takeWhile p = l1 := by
  induction l1 with
  | nil =>
    cases l2 with
    | nil => rfl
    | cons c t =>
      have := h2 c rfl
      simp [List.takeWhile, this]
  | cons a t ih =>
    have ha := h1 a (by simp)
    simp only [List.cons_append, List.takeWhile, ha]
    exact congrArg (a :: ·) (ih (fun c hc => h1 c (by simp [hc])))

/-- Value of `transform` when the reversed character list exposes the
`:MM:SS` tail with digit groups and a digit run before it: the matcher
takes its success branch. -/
theorem transform_eq_of_rev (v : String) (s2 s1 m2 m1 : Char) (rest : List Char)
    (hv : v.toList.reverse = s2 :: s1 :: ':' :: m2 :: m1 :: ':' :: rest)
    (h2 : s2.isDigit = true) (h1 : s1.isDigit = true)
    (hm2 : m2.isDigit = true) (hm1 : m1.isDigit = true)
    (hne : rest.takeWhile Char.isDigit ≠ []) :
    transform v = String.mk (padStart2 (rest.takeWhile Char.isDigit).reverse ++
      ':' :: m1 :: m2 :: ':' :: s1 :: s2 :: []) := by
  unfold transform
  rw [hv]
  have hie : (rest.takeWhile Char.isDigit).isEmpty = false := by
    cases he : rest.takeWhile Char.isDigit with
    | nil => exact absurd he hne
    | cons a t => rfl
  simp [h2, h1, hm2, hm1, hie]

/-- Success of the matcher produces a `TailForm` decomposition of the
input, with the maximal digit run before the tail as the hour group. -/
theorem transform_match_tailform (v : String) (s2 s1 m2 m1 : Char) (rest : List Char)
    (hv : v.toList.reverse = s2 :: s1 :: ':' :: m2 :: m1 :: ':' :: rest)
    (h2 : s2.isDigit = true) (h1 : s1.isDigit = true)
    (hm2 : m2.isDigit = true) (hm1 : m1.isDigit = true)
    (hne : rest.takeWhile Char.isDigit ≠ []) :
    TailForm v (rest.dropWhile Char.isDigit).reverse
      (rest.takeWhile Char.isDigit).reverse m1 m2 s1 s2 := by
  refine ⟨?_, by simpa using hne, ?_, hm1, hm2, h1, h2⟩
  · have h := congrArg List.reverse hv
    rw [List.reverse_reverse] at h
    rw [h]
    have hsplit : rest = rest.takeWhile Char.isDigit ++ rest.dropWhile Char.isDigit :=
      (List.takeWhile_append_dropWhile _ _).symm
    calc (s2 :: s1 :: ':' :: m2 :: m1 :: ':' :: rest).reverse
        = rest.reverse ++ [':', m1, m2, ':', s1, s2] := by simp
      _ = (rest.dropWhile Char.isDigit).reverse ++ (rest.takeWhile Char.isDigit).reverse
            ++ ':' :: m1 :: m2 :: ':' :: s1 :: s2 :: [] := by
          rw [show rest.reverse = (rest.dropWhile Char.isDigit).reverse ++
              (rest.takeWhile Char.isDigit).reverse by
            rw [← List.reverse_append, ← hsplit]]
  · intro c hc
    have hmem : c ∈ rest.takeWhile Char.isDigit := by simpa using hc
    exact List.mem_takeWhile_imp hmem

/-- Value of `transform` at a leftmost match: when the input decomposes
with a maximal hour run (no digit immediately precedes it), the result is
the padded hour with the matched tail. -/
theorem transform_tailform (v : String) (pre h : List Char) (m1 m2 s1 s2 : Char)
    (ht : TailForm v pre h m1 m2 s1 s2)
    (hpre : Option.all (fun c => !c.isDigit) pre.getLast? = true) :
    transform v = String.mk (padStart2 h ++ ':' :: m1 :: m2 :: ':' :: s1 :: s2 :: []) := by
  obtain ⟨hl, hne, hdig, hm1, hm2, hs1, hs2⟩ := ht
  have hv : v.toList.reverse =
      s2 :: s1 :: ':' :: m2 :: m1 :: ':' :: (h.reverse ++ pre.reverse) := by
    rw [hl]
    simp
  have htw : (h.reverse ++ pre.reverse).takeWhile Char.isDigit = h.reverse := by
    apply takeWhile_all_append
    · intro c hc
      exact hdig c (by simpa using hc)
    · intro c hc
      rw [List.head?_reverse] at hc
      rw [hc] at hpre
      simpa using hpre
  have hne' : (h.reverse ++ pre.reverse).takeWhile Char.isDigit ≠ [] := by
    rw [htw]
    simpa using hne
  rw [transform_eq_of_rev v s2 s1 m2 m1 _ hv hs2 hs1 hm2 hm1 hne', htw, List.reverse_reverse]

/-- Pass-through of `transform`: an input with no `TailForm` decomposition
is returned unchanged, with no error path. -/
theorem transform_no_match (v : String)
    (hno : ∀ pre h m1 m2 s1 s2, ¬ TailForm v pre h m1 m2 s1 s2) :
    transform v = v := by
  rcases hv : v.toList.reverse with _ | ⟨s2, _ | ⟨s1, _ | ⟨c1, _ | ⟨m2, _ | ⟨m1, _ | ⟨c2, rest⟩⟩⟩⟩⟩⟩
  · unfold transform; rw [hv]
  · unfold transform; rw [hv]
  · unfold transform; rw [hv]
  · unfold transform; rw [hv]
  · unfold transform; rw [hv]
  · unfold transform; rw [hv]
  · by_cases hg : (s2.isDigit && s1.isDigit && (c1 == ':') && m2.isDigit && m1.isDigit
        && (c2 == ':')) = true
    · simp only [Bool.and_eq_true, beq_iff_eq] at hg
      obtain ⟨⟨⟨⟨⟨hd2, hd1⟩, hc1⟩, hdm2⟩, hdm1⟩, hc2⟩ := hg
      subst hc1
      subst hc2
      by_cases hne : rest.takeWhile Char.isDigit = []
      · unfold transform
        rw [hv]
        simp [hd2, hd1, hdm2, hdm1, hne]
      · exact absurd (transform_match_tailform v s2 s1 m2 m1 rest hv hd2 hd1 hdm2 hdm1 hne)
          (hno _ _ m1 m2 s1 s2)
    · unfold transform
      rw [hv]
      rw [Bool.not_eq_true] at hg
      simp [hg]

/-- Every padded list has length at least two. -/
theorem padStart2_length (l : List Char) : 2 ≤ (padStart2 l).length := by
  unfold padStart2
  split_ifs with h
  · exact h
  · simp
    omega

/-- Padding leaves a list of length at least two unchanged. -/
theorem padStart2_of_ge (l : List Char) (h : 2 ≤ l.length) : padStart2 l = l :=
  if_pos h

/-- Padding a list of digits yields a list of digits. -/
theorem padStart2_all_digit (l : List Char) (h : ∀ c ∈ l, c.isDigit = true) :
    ∀ c ∈ padStart2 l, c.isDigit = true := by
  unfold padStart2
  split_ifs with hl
  · exact h
  · intro c hc
    rcases List.mem_append.mp hc with hc | hc
    · rw [List.eq_of_mem_replicate hc]
      rfl
    · exact h c hc

/-- C6: for every input string, the duration formatter matches the
trailing `<hours>:<minutes>:<seconds>` pattern — minutes and seconds
exactly two digits, hours one or more digits, taken maximally (no digit
immediately precedes the hour group) — and returns the match with the
hour zero-padded to at least two digits; an input admitting no such
decomposition is returned unchanged, with no error. -/
theorem transform_spec (v : String) :
    (∀ pre h m1 m2 s1 s2, TailForm v pre h m1 m2 s1 s2 →
      Option.all (fun c => !c.isDigit) pre.getLast? = true →
      transform v = String.mk (padStart2 h ++ ':' :: m1 :: m2 :: ':' :: s1 :: s2 :: [])) ∧
    ((∀ pre h m1 m2 s1 s2, ¬ TailForm v pre h m1 m2 s1 s2) → transform v = v) :=
  ⟨fun pre h m1 m2 s1 s2 ht hpre => transform_tailform v pre h m1 m2 s1 s2 ht hpre,
   transform_no_match v⟩

/-- Witness for C6 at the spec's test vectors: `"0 days 00:03:15"` yields
`"00:03:15"`, `"1:05:09"` yields `"01:05:09"`, and `"no"` passes through
unchanged. -/
theorem transform_spec_witness :
    transform "0 days 00:03:15" = "00:03:15" ∧
    transform "1:05:09" = "01:05:09" ∧
    transform "no" = "no" := by
  refine ⟨?_, ?_, ?_⟩
  · exact ((transform_spec "0 days 00:03:15").1 ['0', ' ', 'd', 'a', 'y', 's', ' ']
      ['0', '0'] '0' '3' '1' '5' (by decide) (by decide)).trans (by decide)
  · exact ((transform_spec "1:05:09").1 [] ['1'] '0' '5' '0' '9'
      (by decide) (by decide)).trans (by decide)
  · apply (transform_spec "no").2
    intro pre h m1 m2 s1 s2 ht
    have h0 : ("no".toList).length = 2 := rfl
    rw [ht.1] at h0
    simp [List.length_append] at h0
    have h1 : 1 ≤ h.length := List.length_pos.mpr ht.2.1
    omega

/-- C7: the duration formatter is idempotent — applying `transform` to its
own output returns that output unchanged. -/
theorem transform_idem (v : String) : transform (transform v) = transform v := by
  rcases hv : v.toList.reverse with _ | ⟨s2, _ | ⟨s1, _ | ⟨c1, _ | ⟨m2, _ | ⟨m1, _ | ⟨c2, rest⟩⟩⟩⟩⟩⟩
  case nil =>
    have ht : transform v = v := by unfold transform; rw [hv]
    rw [ht, ht]
  case cons.nil =>
    have ht : transform v = v := by unfold transform; rw [hv]
    rw [ht, ht]
  case cons.cons.nil =>
    have ht : transform v = v := by unfold transform; rw [hv]
    rw [ht, ht]
  case cons.cons.cons.nil =>
    have ht : transform v = v := by unfold transform; rw [hv]
    rw [ht, ht]
  case cons.cons.cons.cons.nil =>
    have ht : transform v = v := by unfold transform; rw [hv]
    rw [ht, ht]
  case cons.cons.cons.cons.cons.nil =>
    have ht : transform v = v := by unfold transform; rw [hv]
    rw [ht, ht]
  case cons.cons.cons.cons.cons.cons =>
    by_cases hg : (s2.isDigit && s1.isDigit && (c1 == ':') && m2.isDigit && m1.isDigit
        && (c2 == ':')) = true
    · simp only [Bool.and_eq_true, beq_iff_eq] at hg
      obtain ⟨⟨⟨⟨⟨hd2, hd1⟩, hc1⟩, hdm2⟩, hdm1⟩, hc2⟩ := hg
      subst hc1
      subst hc2
      by_cases hne : rest.takeWhile Char.isDigit = []
      · have ht : transform v = v := by
          unfold transform
          rw [hv]
          simp [hd2, hd1, hdm2, hdm1, hne]
        rw [ht, ht]
      · have ht : transform v = String.mk (padStart2 (rest.takeWhile Char.isDigit).reverse ++
            ':' :: m1 :: m2 :: ':' :: s1 :: s2 :: []) :=
          transform_eq_of_rev v s2 s1 m2 m1 rest hv hd2 hd1 hdm2 hdm1 hne
        rw [ht]
        have hPd : ∀ c ∈ padStart2 (rest.takeWhile Char.isDigit).reverse, c.isDigit = true := by
          apply padStart2_all_digit
          intro c hc
          exact List.mem_takeWhile_imp (by simpa using hc)
        have hv2 : (String.mk (padStart2 (rest.takeWhile Char.isDigit).reverse ++
            ':' :: m1 :: m2 :: ':' :: s1 :: s2 :: [])).toList.reverse =
            s2 :: s1 :: ':' :: m2 :: m1 :: ':' ::
              (padStart2 (rest.takeWhile Char.isDigit).reverse).reverse := by
          simp
        have htw2 : (padStart2 (rest.takeWhile Char.isDigit).reverse).reverse.takeWhile
            Char.isDigit = (padStart2 (rest.takeWhile Char.isDigit).reverse).reverse := by
          have := takeWhile_all_append Char.isDigit
            (padStart2 (rest.takeWhile Char.isDigit).reverse).reverse []
            (fun c hc => hPd c (by simpa using hc)) (fun c hc => by simp at hc)
          simpa using this
        have hne2 : (padStart2 (rest.takeWhile Char.isDigit).reverse).reverse.takeWhile
            Char.isDigit ≠ [] := by
          rw [htw2]
          have := padStart2_length (rest.takeWhile Char.isDigit).reverse
          intro he
          rw [← List.length_eq_zero] at he
          rw [List.length_reverse] at he
          omega
        rw [transform_eq_of_rev _ s2 s1 m2 m1 _ hv2 hd2 hd1 hdm2 hdm1 hne2, htw2,
          List.reverse_reverse,
          padStart2_of_ge _ (padStart2_length (rest.takeWhile Char.isDigit).reverse)]
    · have ht : transform v = v := by
        unfold transform
        rw [hv]
        rw [Bool.not_eq_true] at hg
        simp [hg]
      rw [ht, ht]

end DurationPipe
